import Mathlib

/-!
Verification development for `linux_staticip_tools` (`src/testcode.py`), a
Linux static-IP/DNS configurator.  The Python source is shallowly embedded:
pure string logic becomes Lean functions on `String`/`List Char`, filesystem
state becomes an association list from paths to contents, external commands
become an environment function from argv vectors to outcomes, and code that
can raise a Python exception returns `Except`.

Character model: Python `str` is modelled by Lean `String` (a list of Unicode
characters).  The character-class predicates (`str.isdigit`, decimal parsing)
are modelled faithfully on the Latin-1 range U+0000..U+00FF: there, exactly
the ASCII digits 0-9 and the superscripts U+00B9 ¹, U+00B2 ², U+00B3 ³ have
the Unicode digit property that `str.isdigit` tests, while `int()` accepts
only the ASCII digits (category Nd).  Theorems that depend on the character
classes of otherwise-unconstrained strings carry a Latin-1 or ASCII
hypothesis.
-/

set_option maxRecDepth 4000

namespace LinuxStaticIP

/-- A Python exception escaping a modelled function.  The only exception the
modelled pure code can raise is `ValueError`, from `int()` applied to a
string that passed `str.isdigit` but is not made of decimal digits. -/
inductive PyErr where
  | valueError
deriving DecidableEq, Repr

/-- Models Python `str.isdigit` on a single character, faithfully for the
Latin-1 range: ASCII digits plus the superscript digits ¹ ² ³ (which have
Numeric_Type=Digit and therefore satisfy `str.isdigit`). -/
def pyIsDigitChar (c : Char) : Bool :=
  c.isDigit || c = '¹' || c = '²' || c = '³'

/-- Models Python `str.isdigit` on a whole string: nonempty and every
character a digit. -/
def pyIsDigitStr (s : String) : Bool :=
  !s.data.isEmpty && s.data.all pyIsDigitChar

/-- Numeric value of an ASCII digit character. -/
def digitVal (c : Char) : Nat := c.toNat - 48

/-- Models Python `int(s)` at the call sites of the source, where `s` has
already passed `str.isdigit`: parsing succeeds exactly when the string is a
nonempty run of ASCII decimal digits (Unicode category Nd within Latin-1);
otherwise `int` raises `ValueError`, modelled by `none`. -/
def pyInt (s : String) : Option Nat :=
  if !s.data.isEmpty && s.data.all Char.isDigit then
    some (s.data.foldl (fun a c => a * 10 + digitVal c) 0)
  else none

/-- Every character of the string lies in the Latin-1 range, where the
character-class model is faithful. -/
def latin1 (s : String) : Prop := ∀ c ∈ s.data, c.val < 256

/-- Every character of the string is ASCII. -/
def asciiOnly (s : String) : Prop := ∀ c ∈ s.data, c.val < 128

/-- The whitespace characters Python `str.strip()` removes, restricted to
the ASCII range: space, tab, newline, carriage return, vertical tab, form
feed. -/
def pySpace (c : Char) : Bool :=
  c = ' ' || c = '\t' || c = '\n' || c = '\r' || c = '\x0b' || c = '\x0c'

/-- Models Python `str.strip()`: whitespace trimming at both ends. -/
def pyStrip (s : String) : String :=
  ⟨(((s.data.dropWhile pySpace).reverse.dropWhile pySpace).reverse : List Char)⟩

/-- ASCII lowercasing of one character, as `Char.toLower` and, on ASCII
text, Python `str.lower()` do. -/
def lowerChar (c : Char) : Char :=
  if 'A' ≤ c && c ≤ 'Z' then Char.ofNat (c.toNat + 32) else c

/-- Models Python `str.lower()` (faithful on ASCII text, which is all the
source ever lowers). -/
def pyLower (s : String) : String := ⟨s.data.map lowerChar⟩

/-- Whether `needle` occurs as a contiguous sublist of `hay`. -/
def hasInfixB (needle : List Char) : List Char → Bool
  | [] => needle.isEmpty
  | c :: t => needle.isPrefixOf (c :: t) || hasInfixB needle t

/-- Models the Python substring test `needle in hay`. -/
def strIn (needle hay : String) : Bool := hasInfixB needle.data hay.data

/-- Splitting a character list at every occurrence of a separator character,
as Python `str.split(sep)` does for a one-character separator: no collapsing
of adjacent separators, and the empty string yields one empty part. -/
def splitOnC (sep : Char) : List Char → List (List Char)
  | [] => [[]]
  | c :: t =>
    if c = sep then [] :: splitOnC sep t
    else
      match splitOnC sep t with
      | [] => [[c]]
      | h :: t2 => (c :: h) :: t2

/-- Models Python `s.split(sep)` for a one-character separator. -/
def pySplit (s : String) (sep : Char) : List String :=
  (splitOnC sep s.data).map (fun l => ⟨l⟩)

/-- Joining with a single separator character; inverse of `splitOnC`. -/
def joinSep (sep : Char) : List (List Char) → List Char
  | [] => []
  | [p] => p
  | p :: ps => p ++ sep :: joinSep sep ps

/-- Models Python `sep.join(xs)`. -/
def pyJoin (sep : String) : List String → String
  | [] => ""
  | [x] => x
  | x :: xs => x ++ sep ++ pyJoin sep xs

/-- Models Python truthiness of an optional string (`if search_domain:`):
`None` and the empty string are falsy. -/
def pyTruthy : Option String → Bool
  | none => false
  | some s => !s.data.isEmpty

/-! ## Validators (`v_ipv4`, `v_prefix`, `v_dns_list`) -/

/-- The per-octet loop of `v_ipv4`: for each dot-separated part, first
`p.isdigit()` (rejecting with the "numeric" reason when false), then
`int(p)` (which can raise `ValueError`), then the 0-255 range check.
A `Nat` octet is never negative, so the source's `n < 0` disjunct is
represented by the always-false test it is. -/
def ipv4Go : List String → Except PyErr (Bool × String)
  | [] => .ok (true, "")
  | p :: rest =>
    if pyIsDigitStr p then
      match pyInt p with
      | none => .error .valueError
      | some n =>
        if n < 0 ∨ 255 < n then .ok (false, "IPv4 octet out of range (0-255)")
        else ipv4Go rest
    else .ok (false, "IPv4 octets must be numeric")

/-- Embedding of `v_ipv4` (src/testcode.py lines 112-123). -/
def v_ipv4 (s : String) : Except PyErr (Bool × String) :=
  let parts := pySplit s '.'
  if parts.length ≠ 4 then .ok (false, "Not an IPv4 address")
  else ipv4Go parts

/-- Embedding of `v_prefix` (src/testcode.py lines 125-131). -/
def v_prefix (s : String) : Except PyErr (Bool × String) :=
  if pyIsDigitStr s then
    match pyInt s with
    | none => .error .valueError
    | some n =>
      if n < 1 ∨ 32 < n then .ok (false, "Prefix must be between 1 and 32")
      else .ok (true, "")
  else .ok (false, "Prefix must be numeric")

/-- The comma-split-strip-drop-empties parse inside `v_dns_list`
(src/testcode.py line 134): `[x.strip() for x in s.split(",") if x.strip()]`. -/
def dnsItems (s : String) : List String :=
  (pySplit s ',').filterMap
    (fun x => if (pyStrip x).data.isEmpty then none else some (pyStrip x))

/-- The per-entry loop of `v_dns_list`: the first entry failing `v_ipv4`
yields a rejection wrapping the offending literal. -/
def dnsGo : List String → Except PyErr (Bool × String)
  | [] => .ok (true, "")
  | ip :: rest =>
    match v_ipv4 ip with
    | .error e => .error e
    | .ok (true, _) => dnsGo rest
    | .ok (false, err) => .ok (false, "DNS '" ++ ip ++ "' invalid: " ++ err)

/-- Embedding of `v_dns_list` (src/testcode.py lines 133-141). -/
def v_dns_list (s : String) : Except PyErr (Bool × String) :=
  let items := dnsItems s
  if items.isEmpty then .ok (false, "Provide at least one DNS server")
  else dnsGo items

/-- The re-parse of the raw DNS string in `main` (src/testcode.py line 275):
`dns_list = [x.strip() for x in dns_raw.split(",") if x.strip()]`. -/
def dnsItemsMain (s : String) : List String :=
  (pySplit s ',').filterMap
    (fun x => if (pyStrip x).data.isEmpty then none else some (pyStrip x))

/-- The shape the spec requires of one accepted octet: all-digit (in the
Python `str.isdigit` sense) and parsing to an integer at most 255. -/
def octetOk (p : String) : Bool :=
  pyIsDigitStr p &&
    match pyInt p with
    | none => false
    | some n => decide (n ≤ 255)

/-! ## Backend detection (`detect_stack`) -/

/-- The state of the host that `detect_stack` inspects: which control
binaries `shutil.which` finds, whether `/etc/netplan` exists, the YAML files
globbed there, the outcome of the `nmcli -t -f RUNNING general` query
(`none` models the query raising), and the systemd-networkd markers. -/
structure HostState where
  netplanBin : Bool
  netplanDirExists : Bool
  netplanYamls : List String
  nmcliBin : Bool
  nmcliRunningQuery : Option String
  systemdRunDirExists : Bool
  networkctlBin : Bool
deriving DecidableEq, Repr

/-- The NetworkManager branch's test: `"running" in r.stdout.lower()` when
the query succeeds, and plain presence of `nmcli` when the query raises
(the `except` clause returns "nmcli"). -/
def nmcliIndicates : Option String → Bool
  | some out => strIn "running" (pyLower out)
  | none => true

/-- Embedding of `detect_stack` (src/testcode.py lines 69-86). -/
def detect_stack (h : HostState) : String :=
  if h.netplanBin && h.netplanDirExists && !h.netplanYamls.isEmpty then "netplan"
  else if h.nmcliBin && nmcliIndicates h.nmcliRunningQuery then "nmcli"
  else if h.systemdRunDirExists && h.networkctlBin then "networkd"
  else "iproute2"

/-! ## Backup manager (`ts`, `backup_file`) -/

/-- A wall-clock instant, as `datetime.now()` provides it. -/
structure Timestamp where
  year : Nat
  month : Nat
  day : Nat
  hour : Nat
  minute : Nat
  second : Nat
deriving DecidableEq, Repr

/-- The ASCII digit character for `n % 10`. -/
def digitChar10 (n : Nat) : Char := Char.ofNat (48 + n % 10)

/-- Embedding of `ts()` (src/testcode.py lines 36-37):
`datetime.now().strftime("%Y%m%d-%H%M%S")`, i.e. a zero-padded 4-digit year,
2-digit month, day, hour, minute and second with a hyphen between the date
and time halves.  Faithful for years up to 9999, which is also `datetime`'s
own upper bound. -/
def tsFormat (t : Timestamp) : String :=
  ⟨[digitChar10 (t.year / 1000), digitChar10 (t.year / 100),
    digitChar10 (t.year / 10), digitChar10 t.year,
    digitChar10 (t.month / 10), digitChar10 t.month,
    digitChar10 (t.day / 10), digitChar10 t.day, '-',
    digitChar10 (t.hour / 10), digitChar10 t.hour,
    digitChar10 (t.minute / 10), digitChar10 t.minute,
    digitChar10 (t.second / 10), digitChar10 t.second]⟩

/-- The filesystem as a finite map from paths to file contents, newest
binding first. -/
abbrev FS : Type := List (String × String)

/-- Equality of modelled exception-or-result values is decidable. -/
instance {ε α : Type} [DecidableEq ε] [DecidableEq α] : DecidableEq (Except ε α) := by
  intro x y
  cases x <;> cases y
  case error.error a b =>
    exact if h : a = b then .isTrue (by rw [h]) else .isFalse (by simp [h])
  case ok.ok a b =>
    exact if h : a = b then .isTrue (by rw [h]) else .isFalse (by simp [h])
  case error.ok a b => exact .isFalse (by simp)
  case ok.error a b => exact .isFalse (by simp)

/-- Content of the file at `path`, if it exists. -/
def lookupFS (fs : FS) (path : String) : Option String :=
  match fs with
  | [] => none
  | (p, c) :: rest => if p = path then some c else lookupFS rest path

/-- Embedding of `backup_file` (src/testcode.py lines 39-44).  If the file
exists, its full content is copied (`shutil.copy2`) to a sibling path and
that path is returned; otherwise nothing happens and `None` is returned.
The sibling name `path.with_suffix(path.suffix + f".bak.{ts()}")` replaces
the final suffix of the name by that same suffix extended with
`.bak.<stamp>`, which appends `.bak.<stamp>` to the original name. -/
def backup_file (fs : FS) (path : String) (stamp : String) : Option String × FS :=
  match lookupFS fs path with
  | some c =>
    (some (path ++ ".bak." ++ stamp), (path ++ ".bak." ++ stamp, c) :: fs)
  | none => (none, fs)

/-! ## Interactive prompt (`prompt`) -/

/-- `prompt` (src/testcode.py lines 91-110) is embedded as a function of the
stream of raw input lines.  Each line is stripped; an empty answer takes the
default when one is given; an empty required answer re-prompts; a value the
validator rejects re-prompts; a value the validator accepts is returned.
An exhausted stream returns `none` (the interactive program would block on
further input or die of `EOFError`; either way it produces no value).
`promptValue` is one iteration's stripped-and-defaulted candidate value. -/
def promptValue (default : Option String) (raw : String) : String :=
  let s0 := pyStrip raw
  match default with
  | some d => if s0.data.isEmpty then d else s0
  | none => s0

/-- The retry loop of `prompt`: strip, default, required-check, validate;
re-prompt (recurse on the rest of the input stream) on an empty required
answer or a rejected value. -/
def promptLoop (default : Option String) (required : Bool)
    (validator : Option (String → Except PyErr (Bool × String))) :
    List String → Except PyErr (Option String)
  | [] => .ok none
  | raw :: rest =>
    let s := promptValue default raw
    if required && s.data.isEmpty then promptLoop default required validator rest
    else
      match validator with
      | none => .ok (some s)
      | some v =>
        match v s with
        | .error e => .error e
        | .ok (true, _) => .ok (some s)
        | .ok (false, _) => promptLoop default required validator rest

/-! ## External commands -/

/-- Outcome of executing an argv vector: the process ran and exited with the
given code, or the executable was not found (`FileNotFoundError`). -/
inductive RunRes where
  | exited (code : Nat)
  | notFound
deriving DecidableEq, Repr

/-- Embedding of `run` (src/testcode.py lines 23-26), i.e.
`subprocess.run(cmd, check=check)`: a missing binary raises regardless of
`check`; a non-zero exit raises `CalledProcessError` only when `check` is
true.  The error value records the failing argv vector. -/
def runCmd (env : List String → RunRes) (cmd : List String) (check : Bool) :
    Except (List String) Unit :=
  match env cmd with
  | .notFound => .error cmd
  | .exited 0 => .ok ()
  | .exited (_ + 1) => if check then .error cmd else .ok ()

/-- Models `f"{ip}/{prefix}"` via `normalize_ip_prefix`
(src/testcode.py lines 88-89). -/
def normalize_ip_prefix (ip : String) (pfxLen : Nat) : String :=
  ip ++ "/" ++ Nat.repr pfxLen

/-! ## systemd-networkd strategy (`apply_networkd`) -/

/-- The unit-file content built by `apply_networkd`
(src/testcode.py lines 191-204). -/
def networkdContent (iface ip : String) (pfxLen : Nat) (gw : String)
    (dns : List String) (sd : Option String) : String :=
  pyJoin "\n"
    (["[Match]", "Name=" ++ iface, "", "[Network]",
      "Address=" ++ normalize_ip_prefix ip pfxLen,
      "Gateway=" ++ gw,
      "DNS=" ++ pyJoin " " dns] ++
      (if pyTruthy sd then ["Domains=" ++ sd.getD ""] else [])) ++ "\n"

/-- Argv of `systemctl enable --now systemd-networkd` (line 206). -/
def enableCmd : List String := ["systemctl", "enable", "--now", "systemd-networkd"]

/-- Argv of `systemctl restart systemd-networkd` (line 207). -/
def restartCmd : List String := ["systemctl", "restart", "systemd-networkd"]

/-- Embedding of `apply_networkd` (src/testcode.py lines 185-207): back up
any existing unit file, write the new unit file, then run the enable step
and the restart step, both with `check=False`.  The result is the filesystem
after the writes, or the argv of a fatally failed command. -/
def apply_networkd (env : List String → RunRes) (fs : FS) (iface ip : String)
    (pfxLen : Nat) (gw : String) (dns : List String) (sd : Option String)
    (stamp : String) : Except (List String) FS :=
  let f := "/etc/systemd/network/10-" ++ iface ++ ".network"
  let fs1 := (backup_file fs f stamp).2
  let fs2 := (f, networkdContent iface ip pfxLen gw dns sd) :: fs1
  do
    let _ ← runCmd env enableCmd false
    let _ ← runCmd env restartCmd false
    return fs2

/-! ## Netplan strategy (`apply_netplan`): the emitted YAML document -/

/-- The DNS block of the netplan document: one 10-space-indented sequence
entry per server, in the order given (line 215). -/
def netplanDnsYaml (dns : List String) : String :=
  pyJoin "\n" (dns.map (fun d => "          - " ++ d))

/-- The optional search block (lines 217-219): present exactly when the
search domain is truthy, and then holding that one domain as the single
sequence entry. -/
def netplanSearchYaml (sd : Option String) : String :=
  if pyTruthy sd then "\n        search:\n          - " ++ sd.getD "" else ""

/-- Fixed document text before the interface name. -/
def pA : String := "network:\n  version: 2\n  ethernets:\n    "

/-- Fixed document text between the interface name and the address entry. -/
def pB1a : String := ":\n      dhcp4: no\n      addresses:\n"

/-- The address entry's sequence-item marker. -/
def pB1b : String := "        - "

/-- Fixed document text between the address and the gateway. -/
def pB2 : String := "\n      routes:\n        - to: default\n          via: "

/-- Fixed document text between the gateway and the DNS block. -/
def pB3 : String := "\n      nameservers:\n        addresses:\n"

/-- Embedding of the YAML document written by `apply_netplan`
(src/testcode.py lines 221-235). -/
def netplanContent (iface ip : String) (pfxLen : Nat) (gw : String)
    (dns : List String) (sd : Option String) : String :=
  pA ++ iface ++ pB1a ++ pB1b ++ normalize_ip_prefix ip pfxLen ++ pB2 ++ gw ++
    pB3 ++ netplanDnsYaml dns ++ netplanSearchYaml sd ++ "\n"

/-- The character classes that can occur in the DNS block of the netplan
document when every server passed `v_ipv4`: digits and dots from the
addresses, plus the indentation spaces, the sequence-item hyphen and the
line separator. -/
def dnsSafeChar (c : Char) : Prop :=
  c.isDigit = true ∨ c = '.' ∨ c = ' ' ∨ c = '-' ∨ c = '\n'

/-! ## Raw iproute2 strategy (`apply_iproute2_temp`): the resolver phase -/

/-- What sits at `/etc/resolv.conf`: nothing, a regular file with the given
content, or a symbolic link (whose target may or may not exist) resolving to
the given content.  `Path.exists()` follows links, `Path.is_symlink()` does
not. -/
inductive FileNode where
  | absent
  | regular (content : String)
  | symlink (targetExists : Bool) (content : String)
deriving DecidableEq, Repr

/-- Models `resolv.exists()`. -/
def nodeExists : FileNode → Bool
  | .absent => false
  | .regular _ => true
  | .symlink te _ => te

/-- Models `resolv.is_symlink()`. -/
def nodeIsSymlink : FileNode → Bool
  | .symlink _ _ => true
  | _ => false

/-- The resolver content written by `apply_iproute2_temp`
(src/testcode.py lines 249-254): an optional `search` line, then one
`nameserver` line per DNS server in the order given. -/
def resolvContent (dns : List String) (sd : Option String) : String :=
  pyJoin "\n"
    ((if pyTruthy sd then ["search " ++ sd.getD ""] else []) ++
      dns.map (fun d => "nameserver " ++ d)) ++ "\n"

/-- Embedding of the resolver phase of `apply_iproute2_temp`
(src/testcode.py lines 246-254): the guard
`resolv.exists() and not resolv.is_symlink()` holds exactly for a regular
file, which is then backed up and overwritten; anything else is left
untouched with no backup.  The second component is the backup record
(backup path, preserved original content), `none` when no backup was made. -/
def applyResolv (node : FileNode) (dns : List String) (sd : Option String)
    (stamp : String) : FileNode × Option (String × String) :=
  if nodeExists node && !nodeIsSymlink node then
    match node with
    | .regular c =>
      (.regular (resolvContent dns sd), some ("/etc/resolv.conf.bak." ++ stamp, c))
    | n => (n, none)
  else (node, none)

/-! ## Helper lemmas -/

theorem hasInfixB_iff (p : List Char) : ∀ l, hasInfixB p l = true ↔ p <:+: l := by
  intro l
  induction l with
  | nil =>
    simp [hasInfixB, List.infix_nil, List.isEmpty_iff]
  | cons c t ih =>
    simp [hasInfixB, List.infix_cons_iff, List.isPrefixOf_iff_prefix, ih]

theorem strIn_iff (needle hay : String) :
    strIn needle hay = true ↔ needle.data <:+: hay.data :=
  hasInfixB_iff needle.data hay.data

/-! ## C1: netplan detection -/

/-- Claim C1 counterexample: a host whose `/etc/netplan` exists and holds
a YAML file but whose `netplan` binary `shutil.which` does not find, with
`nmcli` present and reporting "running".  `detect_stack` returns
NetworkManager, not Netplan, so a non-empty netplan directory alone does not
force the Netplan tag. -/
theorem c1_counterexample :
    detect_stack ⟨false, true, ["50-cloud-init.yaml"], true, some "running", false, false⟩ =
      "nmcli" ∧
    detect_stack ⟨false, true, ["50-cloud-init.yaml"], true, some "running", false, false⟩ ≠
      "netplan" := by
  decide

/-- Claim C1 (amended): whenever the `netplan` binary is present AND the
netplan configuration directory exists AND it contains at least one YAML
file, `detect_stack` returns the Netplan tag, regardless of every other
field of the host state. -/
theorem c1_netplan_priority (h : HostState) (h1 : h.netplanBin = true)
    (h2 : h.netplanDirExists = true) (h3 : h.netplanYamls ≠ []) :
    detect_stack h = "netplan" := by
  have he : h.netplanYamls.isEmpty = false := by
    cases hy : h.netplanYamls with
    | nil => exact absurd hy h3
    | cons a t => rfl
  simp [detect_stack, h1, h2, he]

/-- Witness for C1: the amended theorem applied to a host where every other
backend is also available. -/
theorem c1_netplan_priority_witness :
    detect_stack ⟨true, true, ["99-static.yaml"], true, some "running", true, true⟩ =
      "netplan" :=
  c1_netplan_priority _ rfl rfl (by decide)

/-! ## C2: NetworkManager detection -/

/-- Claim C2: with no netplan match, a present `nmcli` yields the
NetworkManager tag when the running-state query's output contains
"running" case-insensitively, and likewise when the query itself raises
(modelled by `none`), where presence alone suffices. -/
theorem c2_nmcli_detection (h : HostState)
    (hnp : ¬(h.netplanBin = true ∧ h.netplanDirExists = true ∧ h.netplanYamls ≠ []))
    (hbin : h.nmcliBin = true)
    (hq : h.nmcliRunningQuery = none ∨
      ∃ out, h.nmcliRunningQuery = some out ∧ strIn "running" (pyLower out) = true) :
    detect_stack h = "nmcli" := by
  have g1 : (h.netplanBin && h.netplanDirExists && !h.netplanYamls.isEmpty) = false := by
    cases hb : h.netplanBin
    · simp
    · cases hd : h.netplanDirExists
      · simp
      · cases hy : h.netplanYamls with
        | nil => simp [hy]
        | cons a t => exact absurd ⟨hb, hd, by simp [hy]⟩ hnp
  have g2 : nmcliIndicates h.nmcliRunningQuery = true := by
    rcases hq with hq | ⟨out, hq, hr⟩
    · simp [hq, nmcliIndicates]
    · simp [hq, nmcliIndicates, hr]
  simp [detect_stack, g1, hbin, g2]

/-- Witness for C2: a host with no netplan files where the `nmcli` query
raises (query outcome `none`) is still tagged NetworkManager, and one whose
query reports `"RUNNING"` in capitals likewise. -/
theorem c2_nmcli_detection_witness :
    detect_stack ⟨false, false, [], true, none, true, true⟩ = "nmcli" ∧
    detect_stack ⟨true, true, [], true, some "RUNNING", true, true⟩ = "nmcli" :=
  ⟨c2_nmcli_detection _ (by simp) rfl (Or.inl rfl),
   c2_nmcli_detection _ (by simp) rfl (Or.inr ⟨"RUNNING", rfl, by decide⟩)⟩

/-! ## C3: systemd-networkd activation failures -/

/-- Claim C3 counterexample: an environment where the enable step exits 0
and the restart step exits 1.  `apply_networkd` still returns success with
the unit file written, because both `systemctl` invocations pass
`check=False`; a restart failure is not fatal. -/
theorem c3_counterexample :
    (fun c => if c = restartCmd then RunRes.exited 1 else RunRes.exited 0) restartCmd =
      RunRes.exited 1 ∧
    apply_networkd (fun c => if c = restartCmd then RunRes.exited 1 else RunRes.exited 0)
        [] "eth0" "10.0.0.5" 24 "10.0.0.1" ["8.8.8.8"] none "T" =
      .ok [("/etc/systemd/network/10-eth0.network",
            networkdContent "eth0" "10.0.0.5" 24 "10.0.0.1" ["8.8.8.8"] none)] := by
  constructor
  · decide
  · decide

/-- Claim C3 (amended): in `apply_networkd`, a non-zero exit of the
enable-and-start step AND a non-zero exit of the subsequent restart step
are both tolerated: whatever the two `systemctl` steps exit with, the
strategy reports success with the unit file written over the backed-up
filesystem. -/
theorem c3_networkd_failures_tolerated (env : List String → RunRes) (fs : FS)
    (iface ip : String) (pfxLen : Nat) (gw : String) (dns : List String)
    (sd : Option String) (stamp : String) (n m : Nat)
    (he : env enableCmd = .exited n) (hr : env restartCmd = .exited m) :
    apply_networkd env fs iface ip pfxLen gw dns sd stamp =
      .ok (("/etc/systemd/network/10-" ++ iface ++ ".network",
            networkdContent iface ip pfxLen gw dns sd) ::
           (backup_file fs ("/etc/systemd/network/10-" ++ iface ++ ".network") stamp).2) := by
  simp only [apply_networkd, runCmd, he, hr]
  cases n <;> cases m <;> rfl

/-- Witness for C3: the amended theorem applied to an environment where both
`systemctl` steps fail with exit code 5. -/
theorem c3_networkd_failures_tolerated_witness :
    apply_networkd (fun _ => RunRes.exited 5) [] "ens3" "192.168.1.10" 24 "192.168.1.1"
        ["1.1.1.1"] none "T" =
      .ok (("/etc/systemd/network/10-ens3.network",
            networkdContent "ens3" "192.168.1.10" 24 "192.168.1.1" ["1.1.1.1"] none) ::
           (backup_file [] "/etc/systemd/network/10-ens3.network" "T").2) :=
  c3_networkd_failures_tolerated (fun _ => RunRes.exited 5) [] "ens3" "192.168.1.10" 24
    "192.168.1.1" ["1.1.1.1"] none "T" 5 5 rfl rfl

/-! ## C5: backup_file -/

/-- Claim C5 counterexample: backing up an existing file produces the
original name followed by `.bak.` and the strftime stamp
`%Y%m%d-%H%M%S` — which is 15 characters (14 digits and a hyphen), not
14. -/
theorem c5_counterexample :
    backup_file [("/etc/resolv.conf", "nameserver 9.9.9.9\n")] "/etc/resolv.conf"
        (tsFormat ⟨2026, 10, 12, 9, 30, 0⟩) =
      (some "/etc/resolv.conf.bak.20261012-093000",
       [("/etc/resolv.conf.bak.20261012-093000", "nameserver 9.9.9.9\n"),
        ("/etc/resolv.conf", "nameserver 9.9.9.9\n")]) ∧
    (tsFormat ⟨2026, 10, 12, 9, 30, 0⟩).length ≠ 14 ∧
    (tsFormat ⟨2026, 10, 12, 9, 30, 0⟩).length = 15 := by
  refine ⟨by decide, by decide, by decide⟩

/-- Claim C5 (amended): `backup_file` on a non-existent path returns `None`
and leaves the filesystem untouched; on an existing file it returns the
sibling path formed from the original name, the literal marker `.bak.` and
the 15-character second-granularity timestamp, and the new filesystem holds
at that path a byte-identical copy of the original content. -/
theorem c5_backup_contract (fs : FS) (path : String) (t : Timestamp) :
    (lookupFS fs path = none → backup_file fs path (tsFormat t) = (none, fs)) ∧
    (∀ c, lookupFS fs path = some c →
      backup_file fs path (tsFormat t) =
        (some (path ++ ".bak." ++ tsFormat t), (path ++ ".bak." ++ tsFormat t, c) :: fs) ∧
      lookupFS (backup_file fs path (tsFormat t)).2 (path ++ ".bak." ++ tsFormat t) = some c ∧
      (tsFormat t).length = 15) := by
  constructor
  · intro h
    simp [backup_file, h]
  · intro c h
    refine ⟨by simp [backup_file, h], ?_, rfl⟩
    simp [backup_file, h, lookupFS]

/-- Witness for C5: the contract applied to a one-file filesystem (existing
path) and to a missing path. -/
theorem c5_backup_contract_witness :
    backup_file [("/a/f.conf", "x")] "/missing" (tsFormat ⟨2026, 1, 2, 3, 4, 5⟩) =
      (none, [("/a/f.conf", "x")]) ∧
    backup_file [("/a/f.conf", "x")] "/a/f.conf" (tsFormat ⟨2026, 1, 2, 3, 4, 5⟩) =
      (some ("/a/f.conf" ++ ".bak." ++ tsFormat ⟨2026, 1, 2, 3, 4, 5⟩),
       ("/a/f.conf" ++ ".bak." ++ tsFormat ⟨2026, 1, 2, 3, 4, 5⟩, "x") :: [("/a/f.conf", "x")]) :=
  ⟨(c5_backup_contract [("/a/f.conf", "x")] "/missing" ⟨2026, 1, 2, 3, 4, 5⟩).1 (by decide),
   ((c5_backup_contract [("/a/f.conf", "x")] "/a/f.conf" ⟨2026, 1, 2, 3, 4, 5⟩).2 "x"
     (by decide)).1⟩

/-! ## C7: resolver file handling in the raw-iproute2 strategy -/

/-- Claim C7: the resolver phase of `apply_iproute2_temp` leaves a symbolic
link (with or without an existing target) untouched and performs no backup
of it; likewise a missing file; and a backup is made exactly when the node
is a regular file, which is the only case that is overwritten. -/
theorem c7_resolv_symlink_untouched :
    (∀ te c dns sd stamp, applyResolv (.symlink te c) dns sd stamp = (.symlink te c, none)) ∧
    (∀ dns sd stamp, applyResolv .absent dns sd stamp = (.absent, none)) ∧
    (∀ node dns sd stamp,
      ((applyResolv node dns sd stamp).2.isSome = true ↔ ∃ c, node = .regular c)) := by
  refine ⟨?_, ?_, ?_⟩
  · intro te c dns sd stamp
    cases te <;> rfl
  · intro dns sd stamp
    rfl
  · intro node dns sd stamp
    cases node with
    | absent => simp [applyResolv, nodeExists, nodeIsSymlink]
    | regular c => simp [applyResolv, nodeExists, nodeIsSymlink]
    | symlink te c => cases te <;> simp [applyResolv, nodeExists, nodeIsSymlink]

/-- Witness for C7: a live symbolic link is returned unchanged with no
backup record, and a regular file does get a backup record. -/
theorem c7_resolv_symlink_untouched_witness :
    applyResolv (.symlink true "# managed\n") ["8.8.8.8"] none "T" =
      (.symlink true "# managed\n", none) ∧
    (applyResolv (.regular "old\n") ["8.8.8.8"] none "T").2.isSome = true :=
  ⟨c7_resolv_symlink_untouched.1 true "# managed\n" ["8.8.8.8"] none "T",
   (c7_resolv_symlink_untouched.2.2 (.regular "old\n") ["8.8.8.8"] none "T").mpr
     ⟨"old\n", rfl⟩⟩

/-! ## C8: validator totality -/

/-- Claim C8: the validators are not total.  Python `str.isdigit` is true
for the superscript two U+00B2, yet `int()` rejects it, so
`v_prefix("²")`, `v_ipv4("².2.2.2")` and `v_dns_list("².2.2.2")` all raise
`ValueError` from `int()` instead of returning a (verdict, reason) pair. -/
theorem c8_validators_raise :
    v_prefix "²" = .error .valueError ∧
    v_ipv4 "².2.2.2" = .error .valueError ∧
    v_dns_list "².2.2.2" = .error .valueError ∧
    pyIsDigitStr "²" = true ∧
    pyInt "²" = none := by
  refine ⟨by decide, by decide, by decide, by decide, by decide⟩

/-! ## C4: validation failures and the prompt loop -/

/-- Claim C4 counterexample: with the gateway prompt fed `"999.1.1.1"` and
then `"10.0.0.1"`, the loop rejects the invalid gateway (with the
out-of-range reason) and the run continues, returning the next value —
the process does not halt and does not exit with a validation report. -/
theorem c4_counterexample :
    promptLoop none true (some v_ipv4) ["999.1.1.1", "10.0.0.1"] = .ok (some "10.0.0.1") ∧
    v_ipv4 "999.1.1.1" = .ok (false, "IPv4 octet out of range (0-255)") := by
  refine ⟨by decide, by decide⟩

/-- Claim C4 (amended): a value that fails validation is never returned by
the prompt loop — the loop re-prompts instead of exiting — so the detector
and the strategies only ever receive validator-accepted values.  Any value
the loop does return passed its validator. -/
theorem c4_prompt_returns_only_validated (default : Option String) (required : Bool)
    (v : String → Except PyErr (Bool × String)) :
    ∀ (inputs : List String) (s : String),
      promptLoop default required (some v) inputs = .ok (some s) →
      ∃ r, v s = .ok (true, r) := by
  intro inputs
  induction inputs with
  | nil =>
    intro s h
    simp [promptLoop] at h
  | cons raw rest ih =>
    intro s h
    rw [show promptLoop default required (some v) (raw :: rest) =
          (if required && (promptValue default raw).data.isEmpty then
            promptLoop default required (some v) rest
          else
            match v (promptValue default raw) with
            | .error e => .error e
            | .ok (true, _) => .ok (some (promptValue default raw))
            | .ok (false, _) => promptLoop default required (some v) rest) from rfl] at h
    split at h
    · exact ih s h
    · split at h
      · exact absurd h (by simp)
      · rename_i r hv
        injection h with h1
        injection h1 with h2
        exact ⟨r, h2 ▸ hv⟩
      · exact ih s h

/-- Witness for C4: applied to the gateway prompt fed an invalid then a
valid address, yielding that the returned value passed `v_ipv4`. -/
theorem c4_prompt_returns_only_validated_witness :
    ∃ r, v_ipv4 "10.0.0.1" = .ok (true, r) :=
  c4_prompt_returns_only_validated none true v_ipv4 ["999.1.1.1", "10.0.0.1"] "10.0.0.1"
    (by decide)

/-! ## C9 and C10: validator characterizations -/

theorem pyInt_isDigit {p : String} {n : Nat} (h : pyInt p = some n) :
    pyIsDigitStr p = true := by
  unfold pyInt at h
  by_cases hg : (!p.data.isEmpty && p.data.all Char.isDigit) = true
  · have h1 := (Bool.and_eq_true _ _).mp hg
    unfold pyIsDigitStr
    refine (Bool.and_eq_true _ _).mpr ⟨h1.1, ?_⟩
    rw [List.all_eq_true] at h1 ⊢
    intro c hc
    have := h1.2 c hc
    unfold pyIsDigitChar
    simp [this]
  · rw [if_neg hg] at h
    exact absurd h (by simp)

theorem octetOk_iff (p : String) :
    octetOk p = true ↔ pyIsDigitStr p = true ∧ ∃ n, pyInt p = some n ∧ n ≤ 255 := by
  unfold octetOk
  cases hn : pyInt p <;> simp [hn]

theorem ipv4Go_eq_ok_true_iff : ∀ l, ipv4Go l = .ok (true, "") ↔ ∀ p ∈ l, octetOk p = true := by
  intro l
  induction l with
  | nil => simp [ipv4Go]
  | cons p rest ih =>
    cases hd : pyIsDigitStr p with
    | false =>
      have hfo : octetOk p = false := by unfold octetOk; rw [hd]; rfl
      simp [ipv4Go, hd, List.forall_mem_cons, hfo]
    | true =>
      cases hn : pyInt p with
      | none =>
        have hfo : octetOk p = false := by unfold octetOk; rw [hd, hn]; rfl
        simp [ipv4Go, hd, hn, List.forall_mem_cons, hfo]
      | some n =>
        by_cases h255 : 255 < n
        · have hgo : ipv4Go (p :: rest) = .ok (false, "IPv4 octet out of range (0-255)") := by
            simp [ipv4Go, hd, hn, h255]
          have hfo : octetOk p = false := by
            unfold octetOk
            rw [hd, hn]
            simp [Nat.not_le.mpr h255]
          simp [hgo, List.forall_mem_cons, hfo]
        · have hgo : ipv4Go (p :: rest) = ipv4Go rest := by
            simp [ipv4Go, hd, hn, h255]
          have hok : octetOk p = true := (octetOk_iff p).mpr ⟨hd, n, hn, by omega⟩
          simp [hgo, ih, List.forall_mem_cons, hok]

theorem ipv4Go_true_reason : ∀ l r, ipv4Go l = .ok (true, r) → r = "" := by
  intro l
  induction l with
  | nil =>
    intro r h
    simp [ipv4Go] at h
    exact h.symm
  | cons p rest ih =>
    intro r h
    cases hd : pyIsDigitStr p with
    | false => simp [ipv4Go, hd] at h
    | true =>
      cases hn : pyInt p with
      | none => simp [ipv4Go, hd, hn] at h
      | some n =>
        by_cases h255 : 255 < n
        · simp [ipv4Go, hd, hn, h255] at h
        · rw [show ipv4Go (p :: rest) = ipv4Go rest by simp [ipv4Go, hd, hn, h255]] at h
          exact ih r h

theorem ipv4Go_append_of_ok : ∀ (pre rest : List String), (∀ q ∈ pre, octetOk q = true) →
    ipv4Go (pre ++ rest) = ipv4Go rest := by
  intro pre
  induction pre with
  | nil => intro rest _; rfl
  | cons q pre2 ih =>
    intro rest hall
    have hq := hall q (List.mem_cons_self q pre2)
    rw [octetOk_iff] at hq
    obtain ⟨hd, n, hn, hle⟩ := hq
    have hstep : ipv4Go ((q :: pre2) ++ rest) = ipv4Go (pre2 ++ rest) := by
      simp [ipv4Go, hd, hn, Nat.not_lt.mpr hle]
    rw [hstep]
    exact ih rest (fun x hx => hall x (List.mem_cons_of_mem q hx))

theorem v_ipv4_true_reason {s r : String} (h : v_ipv4 s = .ok (true, r)) : r = "" := by
  unfold v_ipv4 at h
  by_cases hl : (pySplit s '.').length ≠ 4
  · rw [if_pos hl] at h
    simp at h
  · rw [if_neg hl] at h
    exact ipv4Go_true_reason _ r h

/-- Claim C9: `v_ipv4` accepts exactly the strings with four dot-separated
segments, each all-digit and parsing to an integer at most 255 (and at
least 0, trivially); a wrong segment count is rejected with the address
reason; with the right count, a first offending non-digit segment gets the
numeric reason and a first offending parsed-but-over-255 segment gets the
range reason; and the three reasons are pairwise distinct. -/
theorem c9_v_ipv4_characterization (s : String) :
    (v_ipv4 s = .ok (true, "") ↔
      ((pySplit s '.').length = 4 ∧ ∀ p ∈ pySplit s '.', octetOk p = true)) ∧
    ((pySplit s '.').length ≠ 4 → v_ipv4 s = .ok (false, "Not an IPv4 address")) ∧
    (∀ pre p post, pySplit s '.' = pre ++ p :: post → (pySplit s '.').length = 4 →
      (∀ q ∈ pre, octetOk q = true) →
      ((pyIsDigitStr p = false → v_ipv4 s = .ok (false, "IPv4 octets must be numeric")) ∧
       (∀ n, pyInt p = some n → 255 < n →
         v_ipv4 s = .ok (false, "IPv4 octet out of range (0-255)")))) ∧
    (("Not an IPv4 address" : String) ≠ "IPv4 octets must be numeric" ∧
     ("Not an IPv4 address" : String) ≠ "IPv4 octet out of range (0-255)" ∧
     ("IPv4 octets must be numeric" : String) ≠ "IPv4 octet out of range (0-255)") := by
  refine ⟨?_, ?_, ?_, by decide⟩
  · by_cases hl : (pySplit s '.').length = 4
    · rw [show v_ipv4 s = ipv4Go (pySplit s '.') from by unfold v_ipv4; rw [if_neg (by omega)]]
      simp [ipv4Go_eq_ok_true_iff, hl]
    · rw [show v_ipv4 s = .ok (false, "Not an IPv4 address") from by
        unfold v_ipv4; rw [if_pos hl]]
      simp [hl]
  · intro hl
    unfold v_ipv4
    rw [if_pos hl]
  · intro pre p post hsplit hlen hpre
    have hbody : v_ipv4 s = ipv4Go (p :: post) := by
      unfold v_ipv4
      rw [if_neg (by omega), hsplit, ipv4Go_append_of_ok pre _ hpre]
    constructor
    · intro hd
      rw [hbody]
      simp [ipv4Go, hd]
    · intro n hn h255
      have hd : pyIsDigitStr p = true := pyInt_isDigit hn
      rw [hbody]
      simp [ipv4Go, hd, hn, h255]

/-- Witness for C9: the characterization applied to an accepted address, a
three-segment reject, a non-numeric reject and an out-of-range reject. -/
theorem c9_v_ipv4_characterization_witness :
    v_ipv4 "10.0.0.1" = .ok (true, "") ∧
    v_ipv4 "1.2.3" = .ok (false, "Not an IPv4 address") ∧
    v_ipv4 "1.2.x.4" = .ok (false, "IPv4 octets must be numeric") ∧
    v_ipv4 "1.2.3.999" = .ok (false, "IPv4 octet out of range (0-255)") :=
  ⟨(c9_v_ipv4_characterization "10.0.0.1").1.mpr (by decide),
   (c9_v_ipv4_characterization "1.2.3").2.1 (by decide),
   (((c9_v_ipv4_characterization "1.2.x.4").2.2.1 ["1", "2"] "x" ["4"] (by decide) (by decide)
      (by decide)).1 (by decide)),
   (((c9_v_ipv4_characterization "1.2.3.999").2.2.1 ["1", "2", "3"] "999" [] (by decide)
      (by decide) (by decide)).2 999 (by decide) (by decide))⟩

theorem dnsGo_all_ok : ∀ l, dnsGo l = .ok (true, "") → ∀ d ∈ l, v_ipv4 d = .ok (true, "") := by
  intro l
  induction l with
  | nil => intro _ d hd; simp at hd
  | cons ip rest ih =>
    intro h d hd
    rcases hv : v_ipv4 ip with e | ⟨b, r⟩
    · rw [show dnsGo (ip :: rest) = .error e by simp [dnsGo, hv]] at h
      simp at h
    · cases b with
      | false =>
        rw [show dnsGo (ip :: rest) = .ok (false, "DNS '" ++ ip ++ "' invalid: " ++ r) by
          simp [dnsGo, hv]] at h
        simp at h
      | true =>
        rw [show dnsGo (ip :: rest) = dnsGo rest by simp [dnsGo, hv]] at h
        rcases List.mem_cons.mp hd with rfl | hd2
        · rw [hv, v_ipv4_true_reason hv]
        · exact ih h d hd2

/-- Claim C10: the DNS list `main` passes to the selected strategy is
re-derived from the raw string by the very same
split-on-commas/strip/drop-empties parse the validator used — the two
parses are one function — so whenever `v_dns_list` accepted the raw string,
the strategy receives a non-empty list every entry of which `v_ipv4`
accepts. -/
theorem c10_dns_parse_agreement :
    (∀ s, dnsItemsMain s = dnsItems s) ∧
    (∀ s, v_dns_list s = .ok (true, "") →
      dnsItemsMain s ≠ [] ∧ ∀ d ∈ dnsItemsMain s, v_ipv4 d = .ok (true, "")) := by
  refine ⟨fun s => rfl, ?_⟩
  intro s h
  unfold v_dns_list at h
  cases he : (dnsItems s).isEmpty with
  | true =>
    rw [if_pos he] at h
    simp at h
  | false =>
    rw [if_neg (by simp [he])] at h
    have hne : dnsItems s ≠ [] := by
      intro hnil
      rw [hnil] at he
      simp at he
    exact ⟨by rw [show dnsItemsMain s = dnsItems s from rfl]; exact hne,
           by rw [show dnsItemsMain s = dnsItems s from rfl]; exact dnsGo_all_ok _ h⟩

/-- Witness for C10: the agreement applied to a two-server raw string with
spacing and a trailing comma. -/
theorem c10_dns_parse_agreement_witness :
    dnsItemsMain "8.8.8.8, 1.1.1.1," ≠ [] ∧
    ∀ d ∈ dnsItemsMain "8.8.8.8, 1.1.1.1,", v_ipv4 d = .ok (true, "") :=
  c10_dns_parse_agreement.2 "8.8.8.8, 1.1.1.1," (by decide)

/-! ## C6: helper lemmas about split/join and substring occurrence -/

theorem splitOnC_ne_nil (sep : Char) : ∀ l, splitOnC sep l ≠ [] := by
  intro l
  induction l with
  | nil => simp [splitOnC]
  | cons c t ih =>
    by_cases hc : c = sep
    · simp [splitOnC, hc]
    · cases hs : splitOnC sep t with
      | nil => exact absurd hs ih
      | cons h t2 => simp [splitOnC, hc, hs]

theorem joinSep_splitOnC (sep : Char) : ∀ l, joinSep sep (splitOnC sep l) = l := by
  intro l
  induction l with
  | nil => rfl
  | cons c t ih =>
    by_cases hc : c = sep
    · rw [show splitOnC sep (c :: t) = [] :: splitOnC sep t by simp [splitOnC, hc]]
      cases hs : splitOnC sep t with
      | nil => exact absurd hs (splitOnC_ne_nil sep t)
      | cons h t2 =>
        rw [show joinSep sep ([] :: h :: t2) = sep :: joinSep sep (h :: t2) from rfl]
        rw [← hs, ih, hc]
    · cases hs : splitOnC sep t with
      | nil => exact absurd hs (splitOnC_ne_nil sep t)
      | cons h t2 =>
        rw [show splitOnC sep (c :: t) = (c :: h) :: t2 by simp [splitOnC, hc, hs]]
        rw [hs] at ih
        cases t2 with
        | nil =>
          simp [joinSep] at ih ⊢
          rw [ih]
        | cons h2 t3 =>
          simp [joinSep] at ih ⊢
          rw [ih]

theorem mem_joinSep {sep c : Char} :
    ∀ parts, c ∈ joinSep sep parts → c = sep ∨ ∃ p ∈ parts, c ∈ p := by
  intro parts
  induction parts with
  | nil => intro h; simp [joinSep] at h
  | cons p ps ih =>
    intro h
    cases ps with
    | nil =>
      right
      exact ⟨p, by simp, by simpa [joinSep] using h⟩
    | cons q qs =>
      simp only [joinSep, List.mem_append, List.mem_cons] at h
      rcases h with hp | hsep | hj
      · right; exact ⟨p, by simp, hp⟩
      · left; exact hsep
      · rcases ih hj with h1 | ⟨r, hr, hcr⟩
        · left; exact h1
        · right; exact ⟨r, by simp [hr], hcr⟩

theorem pyInt_digits {p : String} {n : Nat} (h : pyInt p = some n) :
    p.data.all Char.isDigit = true := by
  unfold pyInt at h
  by_cases hg : (!p.data.isEmpty && p.data.all Char.isDigit) = true
  · exact ((Bool.and_eq_true _ _).mp hg).2
  · rw [if_neg hg] at h
    exact absurd h (by simp)

theorem v_ipv4_accepted_chars {s : String} (h : v_ipv4 s = .ok (true, "")) :
    ∀ c ∈ s.data, c.isDigit = true ∨ c = '.' := by
  intro c hc
  have hparts : ∀ p ∈ pySplit s '.', octetOk p = true := by
    unfold v_ipv4 at h
    by_cases hl : (pySplit s '.').length ≠ 4
    · rw [if_pos hl] at h
      simp at h
    · rw [if_neg hl] at h
      exact (ipv4Go_eq_ok_true_iff _).mp h
  rw [show s.data = joinSep '.' (splitOnC '.' s.data) from (joinSep_splitOnC '.' s.data).symm]
    at hc
  rcases mem_joinSep _ hc with h1 | ⟨pl, hpl, hcpl⟩
  · right; exact h1
  · left
    have hmem : (⟨pl⟩ : String) ∈ pySplit s '.' := List.mem_map_of_mem _ hpl
    have hok := hparts _ hmem
    rw [octetOk_iff] at hok
    obtain ⟨-, n, hn, -⟩ := hok
    have hall := pyInt_digits hn
    rw [List.all_eq_true] at hall
    exact hall c hcpl

theorem repr_le32_digits : ∀ n : Nat, n ≤ 32 → ∀ c ∈ (Nat.repr n).data, c.isDigit = true := by
  intro n hn
  interval_cases n <;> decide

theorem pyJoin_map_chars (P : Char → Prop) (f : String → String) (sep : String) :
    ∀ l : List String, (∀ c ∈ sep.data, P c) → (∀ d ∈ l, ∀ c ∈ (f d).data, P c) →
      ∀ c ∈ (pyJoin sep (l.map f)).data, P c := by
  intro l
  induction l with
  | nil =>
    intro _ _ c hc
    rw [show (pyJoin sep ([].map f)) = "" from rfl] at hc
    simp at hc
  | cons d rest ih =>
    intro hsep hf c hc
    cases rest with
    | nil =>
      rw [show pyJoin sep ([d].map f) = f d from rfl] at hc
      exact hf d (by simp) c hc
    | cons d2 rest2 =>
      rw [show pyJoin sep ((d :: d2 :: rest2).map f) =
            f d ++ sep ++ pyJoin sep ((d2 :: rest2).map f) from rfl] at hc
      rw [String.data_append, String.data_append] at hc
      rcases List.mem_append.mp hc with hc1 | hc2
      · rcases List.mem_append.mp hc1 with hc3 | hc4
        · exact hf d (by simp) c hc3
        · exact hsep c hc4
      · exact ih hsep (fun d' hd' => hf d' (by simp [hd'])) c hc2

theorem netplanDnsYaml_chars {dns : List String}
    (hdns : ∀ d ∈ dns, v_ipv4 d = .ok (true, "")) :
    ∀ c ∈ (netplanDnsYaml dns).data, dnsSafeChar c := by
  unfold netplanDnsYaml
  apply pyJoin_map_chars dnsSafeChar (fun d => "          - " ++ d) "\n" dns
  · intro c hc
    have : c = '\n' := by simpa using hc
    exact Or.inr (Or.inr (Or.inr (Or.inr this)))
  · intro d hd c hc
    rw [String.data_append] at hc
    rcases List.mem_append.mp hc with h1 | h1
    · have : c = ' ' ∨ c = '-' := by
        have h2 : c ∈ ("          - " : String).data := h1
        fin_cases h2 <;> simp
      rcases this with h2 | h2
      · exact Or.inr (Or.inr (Or.inl h2))
      · exact Or.inr (Or.inr (Or.inr (Or.inl h2)))
    · rcases v_ipv4_accepted_chars (hdns d hd) c h1 with h2 | h2
      · exact Or.inl h2
      · exact Or.inr (Or.inl h2)

theorem dnsSafe_not_sea {c : Char} (h : dnsSafeChar c) : c ≠ 's' ∧ c ≠ 'e' ∧ c ≠ 'a' := by
  rcases h with h | h | h | h | h
  · refine ⟨?_, ?_, ?_⟩ <;> rintro rfl <;> exact absurd h (by decide)
  all_goals subst h
  all_goals exact ⟨by decide, by decide, by decide⟩

theorem infix_append_or {p x y : List Char} (h : p <:+: x ++ y) :
    p <:+: x ∨ p <:+: y ∨
      ∃ p₁ p₂, p = p₁ ++ p₂ ∧ p₁ ≠ [] ∧ p₂ ≠ [] ∧ p₁ <:+ x ∧ p₂ <+: y := by
  obtain ⟨s, t, hst⟩ := h
  rw [List.append_assoc] at hst
  rcases List.append_eq_append_iff.mp hst with ⟨a, hx, hpt⟩ | ⟨c, _, hy⟩
  · rcases List.append_eq_append_iff.mp hpt with ⟨b, ha, _⟩ | ⟨d, hp, hy2⟩
    · left
      exact ⟨s, b, by rw [hx, ha, List.append_assoc]⟩
    · by_cases hA : a = []
      · subst hA
        right; left
        rw [List.nil_append] at hp
        exact ⟨[], t, by rw [List.nil_append, hp, hy2]⟩
      · by_cases hD : d = []
        · subst hD
          left
          rw [List.append_nil] at hp
          exact ⟨s, [], by rw [List.append_nil, hp, ← hx]⟩
        · right; right
          exact ⟨a, d, hp, hA, hD, ⟨s, hx.symm⟩, ⟨t, hy2.symm⟩⟩
  · right; left
    exact ⟨c, t, by rw [hy, List.append_assoc]⟩

theorem not_infix_append {p x y : List Char}
    (hx : ¬ p <:+: x) (hy : ¬ p <:+: y)
    (hcross : ∀ p₁ p₂, p = p₁ ++ p₂ → p₁ ≠ [] → p₂ ≠ [] → ¬(p₁ <:+ x ∧ p₂ <+: y)) :
    ¬ p <:+: x ++ y := by
  intro h
  rcases infix_append_or h with h1 | h2 | ⟨p₁, p₂, hp, h1, h2, hs, hpre⟩
  · exact hx h1
  · exact hy h2
  · exact hcross p₁ p₂ hp h1 h2 ⟨hs, hpre⟩

theorem sea_splits {p₁ p₂ : List Char}
    (h : p₁ ++ p₂ = ['s', 'e', 'a']) (h1 : p₁ ≠ []) (h2 : p₂ ≠ []) :
    (p₁ = ['s'] ∧ p₂ = ['e', 'a']) ∨ (p₁ = ['s', 'e'] ∧ p₂ = ['a']) := by
  cases p₁ with
  | nil => exact absurd rfl h1
  | cons a t1 =>
    cases t1 with
    | nil =>
      left
      simp only [List.cons_append, List.nil_append, List.cons.injEq] at h
      exact ⟨by rw [h.1], h.2⟩
    | cons b t2 =>
      cases t2 with
      | nil =>
        right
        simp only [List.cons_append, List.nil_append, List.cons.injEq] at h
        exact ⟨by rw [h.1, h.2.1], h.2.2⟩
      | cons e t3 =>
        exfalso
        have hl := congrArg List.length h
        simp only [List.length_append, List.length_cons, List.length_nil] at hl
        have hp2 : 0 < p₂.length := List.length_pos.mpr h2
        omega

theorem prefix_head_eq {a b : Char} {p l : List Char} (h : (a :: p) <+: (b :: l)) : a = b := by
  obtain ⟨t, ht⟩ := h
  rw [List.cons_append] at ht
  injection ht

theorem not_sea_step_const {x y : List Char}
    (hx : ¬ (("sea" : String).data <:+: x))
    (h1 : ¬ (['s'] <:+ x)) (h2 : ¬ (['s', 'e'] <:+ x))
    (hy : ¬ (("sea" : String).data <:+: y)) :
    ¬ (("sea" : String).data <:+: x ++ y) := by
  apply not_infix_append hx hy
  intro p₁ p₂ hp hn1 hn2 hand
  rcases sea_splits hp.symm hn1 hn2 with ⟨hq, _⟩ | ⟨hq, _⟩
  · exact h1 (hq ▸ hand.1)
  · exact h2 (hq ▸ hand.1)

theorem not_sea_step_var (C : Char → Prop) {x y : List Char}
    (hxc : ∀ c ∈ x, C c) (hCs : ¬ C 's')
    (hy : ¬ (("sea" : String).data <:+: y)) :
    ¬ (("sea" : String).data <:+: x ++ y) := by
  apply not_infix_append
  · intro h
    exact hCs (hxc 's' (h.subset (by decide)))
  · exact hy
  · intro p₁ p₂ hp hn1 hn2 hand
    rcases sea_splits hp.symm hn1 hn2 with ⟨hq, _⟩ | ⟨hq, _⟩ <;> subst hq
    · exact hCs (hxc 's' (hand.1.subset (by decide)))
    · exact hCs (hxc 's' (hand.1.subset (by decide)))

theorem not_sea_step_headC {x : List Char} {b : Char} {y : List Char}
    (hx : ¬ (("sea" : String).data <:+: x)) (hb1 : b ≠ 'e') (hb2 : b ≠ 'a')
    (hy : ¬ (("sea" : String).data <:+: (b :: y))) :
    ¬ (("sea" : String).data <:+: x ++ (b :: y)) := by
  apply not_infix_append hx hy
  intro p₁ p₂ hp hn1 hn2 hand
  rcases sea_splits hp.symm hn1 hn2 with ⟨_, hq⟩ | ⟨_, hq⟩ <;> subst hq
  · exact hb1 (prefix_head_eq hand.2).symm
  · exact hb2 (prefix_head_eq hand.2).symm

theorem no_sea_in_netplan_content (iface ip : String) (pfxLen : Nat) (gw : String)
    (dns : List String) (sd : Option String)
    (hip : ∀ c ∈ ip.data, c.isDigit = true ∨ c = '.')
    (hgw : ∀ c ∈ gw.data, c.isDigit = true ∨ c = '.')
    (hdnsc : ∀ c ∈ (netplanDnsYaml dns).data, dnsSafeChar c)
    (hpfx : ∀ c ∈ (Nat.repr pfxLen).data, c.isDigit = true)
    (hiface : ¬ (("sea" : String).data <:+: iface.data))
    (hsd : pyTruthy sd = false) :
    ¬ (("sea" : String).data <:+: (netplanContent iface ip pfxLen gw dns sd).data) := by
  have h0 : ("" : String).data = ([] : List Char) := rfl
  have hdata : (netplanContent iface ip pfxLen gw dns sd).data =
      pA.data ++ (iface.data ++ (pB1a.data ++ (pB1b.data ++
        (( normalize_ip_prefix ip pfxLen).data ++ (pB2.data ++ (gw.data ++ (pB3.data ++
          ((netplanDnsYaml dns).data ++ ("\n" : String).data)))))))) := by
    unfold netplanContent
    rw [show netplanSearchYaml sd = "" from by
      unfold netplanSearchYaml
      rw [hsd]
      rfl]
    simp only [String.data_append, h0, List.append_nil, List.nil_append, List.append_assoc]
  rw [hdata]
  have hR9c : ∀ c ∈ ((netplanDnsYaml dns).data ++ ("\n" : String).data), dnsSafeChar c := by
    intro c hc
    rcases List.mem_append.mp hc with h1 | h1
    · exact hdnsc c h1
    · have hceq : c = '\n' := by simpa using h1
      exact Or.inr (Or.inr (Or.inr (Or.inr hceq)))
  have h9 : ¬ (("sea" : String).data <:+:
      (netplanDnsYaml dns).data ++ ("\n" : String).data) := by
    intro h
    exact (dnsSafe_not_sea (hR9c 's' (h.subset (by decide)))).1 rfl
  have h8 := not_sea_step_const
    (show ¬ (("sea" : String).data <:+: pB3.data) by decide)
    (show ¬ (['s'] <:+ pB3.data) by decide)
    (show ¬ (['s', 'e'] <:+ pB3.data) by decide) h9
  have h7 := not_sea_step_var (fun c => c.isDigit = true ∨ c = '.') hgw (by decide) h8
  have h6 := not_sea_step_const
    (show ¬ (("sea" : String).data <:+: pB2.data) by decide)
    (show ¬ (['s'] <:+ pB2.data) by decide)
    (show ¬ (['s', 'e'] <:+ pB2.data) by decide) h7
  have hcidr : ∀ c ∈ ( normalize_ip_prefix ip pfxLen).data,
      (c.isDigit = true ∨ c = '.' ∨ c = '/') := by
    intro c hc
    unfold normalize_ip_prefix at hc
    rw [String.data_append, String.data_append] at hc
    rcases List.mem_append.mp hc with h1 | h1
    · rcases List.mem_append.mp h1 with h2 | h2
      · rcases hip c h2 with h3 | h3
        · exact Or.inl h3
        · exact Or.inr (Or.inl h3)
      · have hceq : c = '/' := by simpa using h2
        exact Or.inr (Or.inr hceq)
    · exact Or.inl (hpfx c h1)
  have h5 := not_sea_step_var (fun c => c.isDigit = true ∨ c = '.' ∨ c = '/') hcidr
    (by decide) h6
  have h4 := not_sea_step_const
    (show ¬ (("sea" : String).data <:+: pB1b.data) by decide)
    (show ¬ (['s'] <:+ pB1b.data) by decide)
    (show ¬ (['s', 'e'] <:+ pB1b.data) by decide) h5
  have h3 := not_sea_step_const
    (show ¬ (("sea" : String).data <:+: pB1a.data) by decide)
    (show ¬ (['s'] <:+ pB1a.data) by decide)
    (show ¬ (['s', 'e'] <:+ pB1a.data) by decide) h4
  have h2 := not_sea_step_headC hiface
    (show (':' : Char) ≠ 'e' by decide) (show (':' : Char) ≠ 'a' by decide) h3
  exact not_sea_step_const
    (show ¬ (("sea" : String).data <:+: pA.data) by decide)
    (show ¬ (['s'] <:+ pA.data) by decide)
    (show ¬ (['s', 'e'] <:+ pA.data) by decide) h2

/-! ## C6: the emitted netplan YAML document -/

/-- Claim C6 counterexample: the interface name itself is free text the
validators never see; with the interface literally named `search` and no
search domain supplied, the emitted document does textually contain a
`search:` key (from the interface's own mapping line), falsifying the
claim's "if and only if" over all validated configurations. -/
theorem c6_counterexample :
    strIn "search:" (netplanContent "search" "10.0.0.5" 24 "10.0.0.1" ["8.8.8.8"] none) =
      true ∧
    pyTruthy (none : Option String) = false := by
  refine ⟨by decide, rfl⟩

/-- Claim C6 (amended): for every validated configuration whose interface
name does not contain the substring `sea`, the emitted netplan document
contains the address and prefix combined as a single CIDR literal (as the
one entry of the addresses sequence), contains the DNS servers as the
nested sequence built from the given list in order, contains a `search:`
key if and only if a search domain was supplied, and, when one was
supplied, the search key is immediately followed by that domain as the
single sequence entry (never an empty list). -/
theorem c6_netplan_yaml (iface ip : String) (pfxLen : Nat) (gw : String)
    (dns : List String) (sd : Option String)
    (hip : v_ipv4 ip = .ok (true, ""))
    (hgw : v_ipv4 gw = .ok (true, ""))
    (hdns : ∀ d ∈ dns, v_ipv4 d = .ok (true, ""))
    (hpfx : pfxLen ≤ 32)
    (hiface : strIn "sea" iface = false) :
    strIn (pB1b ++ normalize_ip_prefix ip pfxLen)
      (netplanContent iface ip pfxLen gw dns sd) = true ∧
    strIn (netplanDnsYaml dns) (netplanContent iface ip pfxLen gw dns sd) = true ∧
    (strIn "search:" (netplanContent iface ip pfxLen gw dns sd) = true ↔
      pyTruthy sd = true) ∧
    (pyTruthy sd = true →
      strIn ("search:\n          - " ++ sd.getD "")
        (netplanContent iface ip pfxLen gw dns sd) = true) := by
  refine ⟨?_, ?_, ⟨?_, ?_⟩, ?_⟩
  · rw [strIn_iff]
    refine ⟨(pA ++ iface ++ pB1a).data,
      (pB2 ++ gw ++ pB3 ++ netplanDnsYaml dns ++ netplanSearchYaml sd ++ "\n").data, ?_⟩
    simp only [netplanContent, String.data_append, List.append_assoc]
  · rw [strIn_iff]
    refine ⟨(pA ++ iface ++ pB1a ++ pB1b ++ normalize_ip_prefix ip pfxLen ++ pB2 ++ gw ++
      pB3).data, (netplanSearchYaml sd ++ "\n").data, ?_⟩
    simp only [netplanContent, String.data_append, List.append_assoc]
  · intro hin
    by_contra hns
    have hsd : pyTruthy sd = false := by
      cases hq : pyTruthy sd
      · rfl
      · exact absurd hq hns
    have hnosea := no_sea_in_netplan_content iface ip pfxLen gw dns sd
      (v_ipv4_accepted_chars hip) (v_ipv4_accepted_chars hgw)
      (netplanDnsYaml_chars hdns) (repr_le32_digits pfxLen hpfx)
      (by
        intro hcon
        have hb := (strIn_iff "sea" iface).mpr hcon
        rw [hiface] at hb
        exact Bool.noConfusion hb)
      hsd
    rw [strIn_iff] at hin
    exact hnosea (List.IsInfix.trans
      (show ("sea" : String).data <:+: ("search:" : String).data by decide) hin)
  · intro ht
    rw [strIn_iff]
    have hs : netplanSearchYaml sd =
        "\n        " ++ "search:" ++ ("\n          - " ++ sd.getD "") := by
      unfold netplanSearchYaml
      rw [ht]
      rfl
    refine ⟨(pA ++ iface ++ pB1a ++ pB1b ++ normalize_ip_prefix ip pfxLen ++ pB2 ++ gw ++
      pB3 ++ netplanDnsYaml dns ++ "\n        ").data,
      (("\n          - " ++ sd.getD "") ++ "\n").data, ?_⟩
    rw [show netplanContent iface ip pfxLen gw dns sd =
      pA ++ iface ++ pB1a ++ pB1b ++ normalize_ip_prefix ip pfxLen ++ pB2 ++ gw ++
        pB3 ++ netplanDnsYaml dns ++ netplanSearchYaml sd ++ "\n" from rfl, hs]
    simp only [String.data_append, List.append_assoc]
  · intro ht
    rw [strIn_iff]
    have hs : netplanSearchYaml sd =
        "\n        " ++ ("search:\n          - " ++ sd.getD "") := by
      unfold netplanSearchYaml
      rw [ht]
      rfl
    refine ⟨(pA ++ iface ++ pB1a ++ pB1b ++ normalize_ip_prefix ip pfxLen ++ pB2 ++ gw ++
      pB3 ++ netplanDnsYaml dns ++ "\n        ").data, ("\n" : String).data, ?_⟩
    rw [show netplanContent iface ip pfxLen gw dns sd =
      pA ++ iface ++ pB1a ++ pB1b ++ normalize_ip_prefix ip pfxLen ++ pB2 ++ gw ++
        pB3 ++ netplanDnsYaml dns ++ netplanSearchYaml sd ++ "\n" from rfl, hs]
    simp only [String.data_append, List.append_assoc]

/-- Witness for C6: the amended theorem applied to the spec's own example
configuration (`eth0`, `10.0.0.5/24`, gateway `10.0.0.1`, two DNS servers,
no search domain). -/
theorem c6_netplan_yaml_witness :
    strIn (pB1b ++ normalize_ip_prefix "10.0.0.5" 24)
      (netplanContent "eth0" "10.0.0.5" 24 "10.0.0.1" ["8.8.8.8", "1.1.1.1"] none) = true ∧
    strIn (netplanDnsYaml ["8.8.8.8", "1.1.1.1"])
      (netplanContent "eth0" "10.0.0.5" 24 "10.0.0.1" ["8.8.8.8", "1.1.1.1"] none) = true ∧
    (strIn "search:"
      (netplanContent "eth0" "10.0.0.5" 24 "10.0.0.1" ["8.8.8.8", "1.1.1.1"] none) = true ↔
      pyTruthy (none : Option String) = true) ∧
    (pyTruthy (none : Option String) = true →
      strIn ("search:\n          - " ++ (none : Option String).getD "")
        (netplanContent "eth0" "10.0.0.5" 24 "10.0.0.1" ["8.8.8.8", "1.1.1.1"] none) = true) :=
  c6_netplan_yaml "eth0" "10.0.0.5" 24 "10.0.0.1" ["8.8.8.8", "1.1.1.1"] none
    (by decide) (by decide) (by decide) (by decide) (by decide)

end LinuxStaticIP
